import Mathlib

/-!
Verification of the multipart/form-data encoder of `httpx` (`src/httpx/_multipart.py`).

The development shallowly embeds the module: Python byte strings become `List Nat`
(one `Nat` per byte), text strings become Lean `String`s encoded through an explicit
UTF-8 encoder, fallible constructors and generators become `Except`-valued functions,
and the dynamic (`isinstance`-dispatched) input values become inductive types whose
constructors stand for the runtime type tags the source inspects.  The hasattr-based
render caches of the source are modelled explicitly as optional-cache wrappers
(`DataFieldSt`, `FileFieldSt`) around the pure field records.

Helpers that live in this repository but outside `src/` (`to_bytes`,
`primitive_value_to_str`, `peek_filelike_length` from `httpx/_utils.py`) and the
standard-library collaborators (`mimetypes.guess_type`, `pathlib.Path(...).name`)
are modelled from the spec; their doc comments say so.
-/

set_option maxRecDepth 8000

/-- A Python byte string: one `Nat` per byte. -/
abbrev Bytes := List Nat

/-- UTF-8 encoding of a single character, as produced by Python `str.encode()`. -/
def utf8Enc (c : Char) : List Nat :=
  let n := c.toNat
  if n < 0x80 then [n]
  else if n < 0x800 then [0xC0 + n / 0x40, 0x80 + n % 0x40]
  else if n < 0x10000 then [0xE0 + n / 0x1000, 0x80 + n / 0x40 % 0x40, 0x80 + n % 0x40]
  else [0xF0 + n / 0x40000, 0x80 + n / 0x1000 % 0x40, 0x80 + n / 0x40 % 0x40,
        0x80 + n % 0x40]

/-- Python `str.encode()` (UTF-8 bytes of a text string). -/
def strBytes (s : String) : Bytes := (s.data.map utf8Enc).flatten

/-- Uppercase hexadecimal digit for a value below 16. -/
def hexDigit (n : Nat) : Char :=
  if n < 10 then Char.ofNat (0x30 + n) else Char.ofNat (0x37 + n)

/-- Python format `"%{0:02X}".format(n)` for `n < 256`: a percent sign followed by two
uppercase hexadecimal digits. -/
def percentHex (n : Nat) : String :=
  String.mk ['%', hexDigit (n / 16), hexDigit (n % 16)]

/-- Embeds the module-level dict `_HTML5_FORM_ENCODING_REPLACEMENTS`: the literal
entries for the double quote and the backslash, updated with one percent-encoded entry
for every code point in `range(0x1F + 1)` other than `0x1B`.  Because the companion
regular expression `_HTML5_FORM_ENCODING_RE` is an alternation of the dict's
single-character keys, `re.sub` with this dict is exactly a per-character lookup. -/
def _HTML5_FORM_ENCODING_REPLACEMENTS (c : Char) : Option String :=
  if c = '"' then some "%22"
  else if c = '\\' then some "\\\\"
  else if c.toNat < 0x1F + 1 && c.toNat != 0x1B then some (percentHex c.toNat)
  else none

/-- The `_HTML5_FORM_ENCODING_RE.sub(replacer, value)` step of `_format_form_param`:
each character is replaced by its dict entry when one exists. -/
def escapeFormValue (value : String) : String :=
  String.join (value.data.map
    (fun c => (_HTML5_FORM_ENCODING_REPLACEMENTS c).getD (String.mk [c])))

/-- Embeds `_format_form_param` from `src/httpx/_multipart.py`. -/
def _format_form_param (name value : String) : Bytes :=
  strBytes (name ++ "=\"" ++ escapeFormValue value ++ "\"")

/-- ASCII lowercase of one character (Python `str.lower` on the ASCII range). -/
def lowerChar (c : Char) : Char :=
  if 65 ≤ c.toNat && c.toNat ≤ 90 then Char.ofNat (c.toNat + 32) else c

/-- Python `str.lower()` (ASCII-range model). -/
def lowerStr (s : String) : String := String.mk (s.data.map lowerChar)

/-- Modelled from the spec: the standard filename-extension to MIME type table behind
`mimetypes.guess_type` (a stdlib collaborator, not part of this repository).  The table
is a small representative fragment; `guessType` returns `none` for an extension that is
not in the table, as `mimetypes.guess_type` does for an unrecognized extension. -/
def mimeTable : List (String × String) :=
  [(".txt", "text/plain"), (".html", "text/html"), (".json", "application/json"),
   (".png", "image/png"), (".pdf", "application/pdf"), (".csv", "text/csv")]

/-- Modelled from the spec: the filename extension (final dot-suffix) used by the
extension-to-type lookup; empty when the filename has no dot. -/
def extOf (s : String) : String :=
  if s.data.contains '.' then
    String.mk ('.' :: (s.data.reverse.takeWhile (fun c => c ≠ '.')).reverse)
  else ""

/-- Modelled from the spec: `mimetypes.guess_type(filename)[0]`. -/
def guessType (filename : String) : Option String :=
  mimeTable.lookup (lowerStr (extOf filename))

/-- Embeds `_guess_content_type` from `src/httpx/_multipart.py`: `None` for an absent
or empty filename, otherwise the guessed type with the
`application/octet-stream` fallback. -/
def _guess_content_type (filename : Option String) : Option String :=
  match filename with
  | some f => if f = "" then none else some ((guessType f).getD "application/octet-stream")
  | none => none

/-- Whitespace bytes stripped by Python `bytes.strip()`. -/
def isWSByte (b : Nat) : Bool :=
  b == 32 || b == 9 || b == 10 || b == 13 || b == 11 || b == 12

/-- Drop the longest suffix of bytes satisfying `p` (the right half of
Python `bytes.strip`). -/
def dropTrailing (p : Nat → Bool) : Bytes → Bytes
  | [] => []
  | a :: l =>
    match dropTrailing p l with
    | [] => if p a then [] else [a]
    | r :: rs => a :: r :: rs

/-- Python `bytes.strip(chars)`: drop the characters satisfying `p` from both ends. -/
def bstripBy (p : Nat → Bool) (l : Bytes) : Bytes := dropTrailing p (l.dropWhile p)

/-- Python `bytes.strip()` with no argument (whitespace). -/
def bstrip (l : Bytes) : Bytes := bstripBy isWSByte l

/-- Python `bytes.strip(b'"')`. -/
def stripQuotes (l : Bytes) : Bytes := bstripBy (fun b => b == 34) l

/-- ASCII lowercase of one byte (Python `bytes.lower` pointwise). -/
def byteLower (b : Nat) : Nat := if 65 ≤ b && b ≤ 90 then b + 32 else b

/-- Python `value.split(sep)` for byte strings with a one-byte separator. -/
def bsplit (sep : Nat) : Bytes → List Bytes
  | [] => [[]]
  | a :: l =>
    if a == sep then [] :: bsplit sep l
    else
      match bsplit sep l with
      | [] => [[a]]
      | r :: rs => (a :: r) :: rs

/-- The `for section in content_type.split(b";")` loop of
`get_multipart_boundary_from_content_type`: return the processed first section whose
stripped, lowercased form starts with `b"boundary="`. -/
def findBoundarySection : List Bytes → Option Bytes
  | [] => none
  | sec :: rest =>
    if (strBytes "boundary=").isPrefixOf ((bstrip sec).map byteLower) then
      some (stripQuotes ((bstrip sec).drop 9))
    else findBoundarySection rest

/-- Embeds `get_multipart_boundary_from_content_type` from
`src/httpx/_multipart.py`. -/
def get_multipart_boundary_from_content_type (content_type : Option Bytes) :
    Option Bytes :=
  match content_type with
  | none => none
  | some ct =>
    if ct.isEmpty then none
    else if !(strBytes "multipart/form-data").isPrefixOf ct then none
    else if ct.contains 59 then findBoundarySection (bsplit 59 ct)
    else none

/-- The claim's own description of boundary extraction (C9), written from the spec
text: split on the semicolon, find the first parameter whose trimmed, case-insensitive
form begins with `boundary=`, strip surrounding double quotes, return the remainder. -/
def boundaryExtractSpec (content_type : Option Bytes) : Option Bytes :=
  match content_type with
  | none => none
  | some ct =>
    if (strBytes "multipart/form-data").isPrefixOf ct then
      match (bsplit 59 ct).find?
          (fun sec => (strBytes "boundary=").isPrefixOf
            ((bstrip sec).map byteLower)) with
      | some sec => some (stripQuotes ((bstrip sec).drop 9))
      | none => none
    else none

/-- The module's error channel: every failure in `_multipart.py` is a raised
`TypeError` (the "ValidationError" of the spec); the payload is the message. -/
abbrev Err := String

/-- A runtime Python value as classified by `DataField.__init__`'s `isinstance`
checks.  `other` stands for any value outside the accepted primitive kinds (a list, a
dict, ...).  Python booleans are integers (`isinstance(True, int)`), so they are
subsumed by `int` here. -/
inductive PyValue where
  | str (s : String)
  | bytes (b : Bytes)
  | int (i : Int)
  | float (canonicalText : String)
  | none
  | other (desc : String)
deriving DecidableEq, Repr

/-- Modelled from the spec: `primitive_value_to_str` from `httpx/_utils.py` (not under
`src/`): absent becomes the empty string, numbers their canonical text form, text
passes through.  The `bytes`/`other` branches are never reached from `DataField`. -/
def primitive_value_to_str : PyValue → String
  | .str s => s
  | .int i => toString i
  | .float t => t
  | .none => ""
  | .bytes _ => ""
  | .other _ => ""

/-- The normalized `self.value` of a `DataField`: raw bytes pass through, everything
else is its canonical text. -/
inductive DataValue where
  | str (s : String)
  | bytes (b : Bytes)
deriving DecidableEq, Repr

/-- Modelled from the spec: `to_bytes` from `httpx/_utils.py` (not under `src/`): text
encodes as UTF-8, raw bytes pass through unchanged. -/
def to_bytes : DataValue → Bytes
  | .str s => strBytes s
  | .bytes b => b

/-- A constructed `DataField` (name already checked textual, value normalized). -/
structure DataField where
  name : String
  value : DataValue
deriving DecidableEq, Repr

/-- Embeds `DataField.__init__`: reject a non-textual name, reject a value outside the
accepted primitive kinds, keep raw bytes, convert everything else to text. -/
def DataField.make (name : PyValue) (value : PyValue) : Except Err DataField :=
  match name with
  | .str n =>
    match value with
    | .other _ => .error "Invalid type for value. Expected primitive type."
    | .bytes b => .ok { name := n, value := .bytes b }
    | v => .ok { name := n, value := .str (primitive_value_to_str v) }
  | _ => .error "Invalid type for name. Expected str."

/-- Embeds the computation cached by `DataField.render_headers`. -/
def DataField.render_headers (f : DataField) : Bytes :=
  strBytes "Content-Disposition: form-data; " ++ _format_form_param "name" f.name
    ++ strBytes "\r\n\r\n"

/-- Embeds the computation cached by `DataField.render_data`. -/
def DataField.render_data (f : DataField) : Bytes := to_bytes f.value

/-- Embeds `DataField.get_length`. -/
def DataField.get_length (f : DataField) : Nat :=
  f.render_headers.length + f.render_data.length

/-- Embeds `DataField.render`: the two-chunk sequence headers-then-body. -/
def DataField.render (f : DataField) : List Bytes :=
  [f.render_headers, f.render_data]

/-- One chunk produced by a suspension-capable (async-iterable) source.  `notBytes`
stands for a produced object that is not a Python `bytes` (e.g. text). -/
inductive AChunk where
  | bytes (b : Bytes)
  | notBytes (desc : String)
deriving DecidableEq, Repr

/-- A file source as supplied by the caller, classified by the `isinstance` checks of
`FileField`.  For `filelike`, `content` is the byte sequence `read` will produce after
the `seek(0)` that rendering performs, `peekable` says whether
`peek_filelike_length` can probe its size, and `fname` models its optional `name`
attribute.  `textBuffer` is an `io.StringIO`, `textFile` any other
`io.TextIOBase`. -/
inductive RawSource where
  | str (s : String)
  | bytes (b : Bytes)
  | filelike (content : Bytes) (peekable : Bool) (seekable : Bool) (fname : Option String)
  | asyncSource (chunks : List AChunk)
  | textBuffer (s : String)
  | textFile (s : String)
deriving DecidableEq, Repr

/-- A file source that survived construction (text-mode sources rejected). -/
inductive FileContent where
  | str (s : String)
  | bytes (b : Bytes)
  | filelike (content : Bytes) (peekable : Bool) (seekable : Bool) (fname : Option String)
  | asyncSource (chunks : List AChunk)
deriving DecidableEq, Repr

/-- The text-mode rejection of `FileField.__init__` (`io.StringIO` first, then
`io.TextIOBase`). -/
def RawSource.toFileContent : RawSource → Except Err FileContent
  | .textBuffer _ =>
      .error "Multipart file uploads require 'io.BytesIO', not 'io.StringIO'."
  | .textFile _ =>
      .error "Multipart file uploads must be opened in binary mode, not text mode."
  | .str s => .ok (.str s)
  | .bytes b => .ok (.bytes b)
  | .filelike c p sk n => .ok (.filelike c p sk n)
  | .asyncSource cs => .ok (.asyncSource cs)

/-- The four accepted file-specification shapes of `FileField.__init__`: the 2-, 3-
and 4-tuples, and a bare source object. -/
inductive FileSpec where
  | two (filename : Option String) (file : RawSource)
  | three (filename : Option String) (file : RawSource) (content_type : Option String)
  | four (filename : Option String) (file : RawSource) (content_type : Option String)
      (headers : List (String × String))
  | bare (file : RawSource)
deriving DecidableEq, Repr

/-- Modelled from the spec: `Path(str(...)).name`, the final path component of the
source's `name` attribute. -/
def basename (s : String) : String :=
  String.mk ((s.data.reverse.takeWhile (fun c => c ≠ '/')).reverse)

/-- The `name` attribute read by the bare-source shape (`getattr(value, "name",
"upload")`); only a file-like object carries one. -/
def RawSource.nameAttr : RawSource → Option String
  | .filelike _ _ _ n => n
  | _ => none

/-- The tuple-destructuring prologue of `FileField.__init__`, collapsing the four
shapes to `(filename, fileobj, content_type, headers)`. -/
def FileSpec.parts :
    FileSpec → Option String × RawSource × Option String × List (String × String)
  | .two fn f => (fn, f, none, [])
  | .three fn f ct => (fn, f, ct, [])
  | .four fn f ct hs => (fn, f, ct, hs)
  | .bare f => (some (basename (f.nameAttr.getD "upload")), f, none, [])

/-- The filename component of a file specification. -/
def FileSpec.filenameOf (v : FileSpec) : Option String := v.parts.1

/-- The source component of a file specification. -/
def FileSpec.sourceOf (v : FileSpec) : RawSource := v.parts.2.1

/-- The explicit content-type component of a file specification. -/
def FileSpec.ctArg (v : FileSpec) : Option String := v.parts.2.2.1

/-- The extra-headers component of a file specification. -/
def FileSpec.extraHeaders (v : FileSpec) : List (String × String) := v.parts.2.2.2

/-- Checks whether `pat` occurs as a contiguous sublist (Python `in` on strings). -/
def listContainsSub (pat : List Char) : List Char → Bool
  | [] => pat.isEmpty
  | c :: rest => pat.isPrefixOf (c :: rest) || listContainsSub pat rest

/-- Python `pat in s` substring containment. -/
def strContainsSub (pat s : String) : Bool := listContainsSub pat.data s.data

/-- The content-type resolution of `FileField.__init__`: the explicit argument when
present, otherwise the guess from the filename. -/
def resolvedContentType (v : FileSpec) : Option String :=
  match v.ctArg with
  | some ct => some ct
  | none => _guess_content_type v.filenameOf

/-- A constructed `FileField`. -/
structure FileField where
  name : String
  filename : Option String
  file : FileContent
  headers : List (String × String)
deriving DecidableEq, Repr

/-- Embeds `FileField.__init__`: destructure the shape, resolve the content type,
record it in the headers unless some supplied header key contains `content-type`
case-insensitively, and reject text-mode sources. -/
def FileField.make (name : String) (value : FileSpec) : Except Err FileField :=
  let filename := value.filenameOf
  let fileobj := value.sourceOf
  let headers0 := value.extraHeaders
  let content_type := resolvedContentType value
  let has_content_type_header :=
    headers0.any (fun kv => strContainsSub "content-type" (lowerStr kv.1))
  let headers :=
    match content_type with
    | some ct =>
        if has_content_type_header then headers0
        else headers0 ++ [("Content-Type", ct)]
    | none => headers0
  match fileobj.toFileContent with
  | .error e => .error e
  | .ok file => .ok { name := name, filename := filename, file := file, headers := headers }

/-- Embeds `FileField.CHUNK_SIZE` (64 KiB). -/
def CHUNK_SIZE : Nat := 64 * 1024

/-- The `read`-until-exhaustion loop of `FileField.render_data`, structurally
recursive on a fuel bound: each step emits one fixed-size chunk of the remaining
content.  Since every step consumes at least one byte of a nonempty remainder,
`content.length` fuel always suffices (`readChunks` below). -/
def readChunksF : Nat → Bytes → List Bytes
  | _, [] => []
  | 0, _ :: _ => []
  | fuel + 1, a :: t => (a :: t).take CHUNK_SIZE :: readChunksF fuel ((a :: t).drop CHUNK_SIZE)

/-- The chunk sequence `FileField.render_data` reads from a file-like source. -/
def readChunks (content : Bytes) : List Bytes := readChunksF content.length content

/-- Modelled from the spec: `peek_filelike_length` from `httpx/_utils.py` (not under
`src/`): a cheap probe of the size the source will yield, without consuming it;
`none` when the source does not support probing (including async sources). -/
def peek_filelike_length : FileContent → Option Nat
  | .filelike content peekable _ _ => if peekable then some content.length else none
  | _ => none

/-- Embeds the computation cached by `FileField.render_headers`: the
Content-Disposition line with the escaped name, the escaped filename when present,
each extra header on its own line, and the terminating blank line. -/
def FileField.render_headers (f : FileField) : Bytes :=
  let base := strBytes "Content-Disposition: form-data; "
    ++ _format_form_param "name" f.name
  let withFilename :=
    match f.filename with
    | some fn =>
        if fn = "" then base
        else base ++ strBytes "; " ++ _format_form_param "filename" fn
    | none => base
  let withHeaders := f.headers.foldl
    (fun acc kv => acc ++ strBytes ("\r\n" ++ kv.1 ++ ": ") ++ strBytes kv.2)
    withFilename
  withHeaders ++ strBytes "\r\n\r\n"

/-- Embeds `FileField.get_length`: headers plus in-memory content length, or headers
plus the probed size, or `none` when the probe is inconclusive. -/
def FileField.get_length (f : FileField) : Option Nat :=
  let headers := f.render_headers
  match f.file with
  | .str s => some (headers.length + (to_bytes (.str s)).length)
  | .bytes b => some (headers.length + (to_bytes (.bytes b)).length)
  | _ =>
    match peek_filelike_length f.file with
    | none => none
    | some n => some (headers.length + n)

/-- Embeds `FileField.render_data` (the blocking path): reject async sources, yield
in-memory content as one chunk, otherwise seek to the start (a no-op here: `content`
already is the post-seek stream) and read fixed-size chunks until exhaustion. -/
def FileField.render_data (f : FileField) : Except Err (List Bytes) :=
  match f.file with
  | .asyncSource _ => .error "Invalid type for file. AsyncIterable is not supported."
  | .str s => .ok [to_bytes (.str s)]
  | .bytes b => .ok [to_bytes (.bytes b)]
  | .filelike content _ _ _ => .ok (readChunks content)

/-- `Except`-valued map over a list, failing at the first failing element (the model
of a generator that raises partway through). -/
def mapExcept (f : α → Except Err β) : List α → Except Err (List β)
  | [] => .ok []
  | a :: l =>
    match f a with
    | .error e => .error e
    | .ok b =>
      match mapExcept f l with
      | .error e => .error e
      | .ok bs => .ok (b :: bs)

/-- Embeds `FileField.arender_data` (the suspension-capable path): consume an async
source directly, rejecting any produced chunk that is not raw bytes; otherwise
delegate to the blocking chunk sequence. -/
def FileField.arender_data (f : FileField) : Except Err (List Bytes) :=
  match f.file with
  | .asyncSource chunks =>
    mapExcept
      (fun ch => match ch with
        | .bytes b => .ok b
        | .notBytes _ =>
          .error "Multipart file uploads must be opened in binary mode, not text mode.")
      chunks
  | _ => f.render_data

/-- Embeds `FileField.render`: headers chunk, then the body chunks. -/
def FileField.render (f : FileField) : Except Err (List Bytes) :=
  f.render_data.map (fun body => f.render_headers :: body)

/-- Embeds `FileField.arender`. -/
def FileField.arender (f : FileField) : Except Err (List Bytes) :=
  f.arender_data.map (fun body => f.render_headers :: body)

/-- A field of the stream: the `DataField | FileField` union. -/
inductive MPField where
  | data (d : DataField)
  | file (f : FileField)
deriving DecidableEq, Repr

/-- Per-variant `get_length` (a `DataField` length is always determinate). -/
def MPField.get_length : MPField → Option Nat
  | .data d => some d.get_length
  | .file f => f.get_length

/-- Per-variant blocking `render`. -/
def MPField.render : MPField → Except Err (List Bytes)
  | .data d => .ok d.render
  | .file f => f.render

/-- The per-variant dispatch of `aiter_chunks`: `arender` for a `FileField`,
the blocking `render` for a `DataField`. -/
def MPField.arender : MPField → Except Err (List Bytes)
  | .data d => .ok d.render
  | .file f => f.arender

/-- Whether a field's source is a suspension-capable (async) chunk producer. -/
def FileContent.isAsync : FileContent → Bool
  | .asyncSource _ => true
  | _ => false

/-- Whether a field is a file field backed by an async source. -/
def MPField.hasAsyncSource : MPField → Bool
  | .data _ => false
  | .file f => f.file.isAsync

/-- One entry of the caller's data mapping: a scalar, or a list/tuple of scalars that
`_iter_fields` expands into one field per element. -/
inductive DataEntry where
  | single (v : PyValue)
  | many (vs : List PyValue)
deriving DecidableEq, Repr

/-- The data-field half of `MultipartStream._iter_fields`, in mapping iteration
order, expanding list-valued entries. -/
def dataFieldList : List (String × DataEntry) → Except Err (List MPField)
  | [] => .ok []
  | (n, e) :: rest =>
    match
      (match e with
       | .single v => (DataField.make (.str n) v).map (fun d => [MPField.data d])
       | .many vs =>
         mapExcept (fun v => (DataField.make (.str n) v).map MPField.data) vs) with
    | .error er => .error er
    | .ok here =>
      match dataFieldList rest with
      | .error er => .error er
      | .ok tail => .ok (here ++ tail)

/-- The file-field half of `MultipartStream._iter_fields`, in input list order. -/
def fileFieldList : List (String × FileSpec) → Except Err (List MPField)
  | [] => .ok []
  | (n, v) :: rest =>
    match FileField.make n v with
    | .error e => .error e
    | .ok f =>
      match fileFieldList rest with
      | .error e => .error e
      | .ok tail => .ok (.file f :: tail)

/-- Embeds `MultipartStream._iter_fields`: all data fields first, then all file
fields. -/
def _iter_fields (data : List (String × DataEntry)) (files : List (String × FileSpec)) :
    Except Err (List MPField) :=
  match dataFieldList data with
  | .error e => .error e
  | .ok ds =>
    match fileFieldList files with
    | .error e => .error e
    | .ok fs => .ok (ds ++ fs)

/-- Python `bytes.decode("ascii")` on bytes already checked to be below 128. -/
def asciiDecode (b : Bytes) : String := String.mk (b.map Char.ofNat)

/-- A constructed `MultipartStream`. -/
structure MultipartStream where
  boundary : Bytes
  content_type : String
  fields : List MPField
deriving DecidableEq, Repr

/-- Embeds `MultipartStream.__init__`.  When the caller passes no boundary the source
draws 16 random bytes and hex-encodes them; the model takes the boundary as given
(randomness is outside the embedding) and keeps the `decode("ascii")` failure for a
non-ASCII boundary as an error. -/
def MultipartStream.make (data : List (String × DataEntry))
    (files : List (String × FileSpec)) (boundary : Bytes) :
    Except Err MultipartStream :=
  if boundary.all (fun b => b < 128) then
    match _iter_fields data files with
    | .error e => .error e
    | .ok fs =>
        .ok { boundary := boundary,
              content_type := "multipart/form-data; boundary=" ++ asciiDecode boundary,
              fields := fs }
  else .error "boundary does not decode as ASCII"

/-- The bytes `b"\r\n"`. -/
def crlf : Bytes := [13, 10]

/-- The bytes `b"--"`. -/
def dashdash : Bytes := [45, 45]

/-- The closing delimiter `b"--{boundary}--\r\n"`. -/
def closingChunk (boundary : Bytes) : Bytes := dashdash ++ boundary ++ dashdash ++ crlf

/-- The generator body of `MultipartStream.iter_chunks`: per field the opening
delimiter, the field's rendered chunks, a CRLF; then the closing delimiter. -/
def iterChunksLoop (boundary : Bytes) : List MPField → Except Err (List Bytes)
  | [] => .ok [closingChunk boundary]
  | f :: fs =>
    match f.render with
    | .error e => .error e
    | .ok body =>
      match iterChunksLoop boundary fs with
      | .error e => .error e
      | .ok rest => .ok (((dashdash ++ boundary ++ crlf) :: (body ++ [crlf])) ++ rest)

/-- Embeds `MultipartStream.iter_chunks`. -/
def MultipartStream.iter_chunks (s : MultipartStream) : Except Err (List Bytes) :=
  iterChunksLoop s.boundary s.fields

/-- The generator body of `MultipartStream.aiter_chunks` (identical framing, async
dispatch per field). -/
def aiterChunksLoop (boundary : Bytes) : List MPField → Except Err (List Bytes)
  | [] => .ok [closingChunk boundary]
  | f :: fs =>
    match f.arender with
    | .error e => .error e
    | .ok body =>
      match aiterChunksLoop boundary fs with
      | .error e => .error e
      | .ok rest => .ok (((dashdash ++ boundary ++ crlf) :: (body ++ [crlf])) ++ rest)

/-- Embeds `MultipartStream.aiter_chunks`. -/
def MultipartStream.aiter_chunks (s : MultipartStream) : Except Err (List Bytes) :=
  aiterChunksLoop s.boundary s.fields

/-- The accumulation loop of `MultipartStream.get_content_length`: per field the
opening delimiter (2 + boundary + 2), the field length, the trailing CRLF; `none` as
soon as a field length is indeterminate. -/
def contentLengthLoop (boundary_length : Nat) : List MPField → Nat → Option Nat
  | [], acc => some acc
  | f :: fs, acc =>
    match f.get_length with
    | none => none
    | some fl => contentLengthLoop boundary_length fs (acc + (2 + boundary_length + 2) + fl + 2)

/-- Embeds `MultipartStream.get_content_length`: the loop total plus the closing
delimiter (2 + boundary + 4); never an error, `none` means indeterminate. -/
def MultipartStream.get_content_length (s : MultipartStream) : Option Nat :=
  match contentLengthLoop s.boundary.length s.fields 0 with
  | none => none
  | some len => some (len + (2 + s.boundary.length + 4))

/-- Embeds `MultipartStream.get_headers`: `Transfer-Encoding: chunked` when the
length is indeterminate, otherwise `Content-Length`; always `Content-Type`. -/
def MultipartStream.get_headers (s : MultipartStream) : List (String × String) :=
  match s.get_content_length with
  | none => [("Transfer-Encoding", "chunked"), ("Content-Type", s.content_type)]
  | some n => [("Content-Length", toString n), ("Content-Type", s.content_type)]

/-- A `DataField` object together with its `hasattr`-based render caches
(`self._headers`, `self._data`): `none` models the attribute not yet set. -/
structure DataFieldSt where
  base : DataField
  hdrCache : Option Bytes
  dataCache : Option Bytes
deriving DecidableEq, Repr

/-- Embeds `DataField.render_headers` with its cache: return the cached bytes when
present, otherwise compute and store them. -/
def DataFieldSt.render_headers (o : DataFieldSt) : Bytes × DataFieldSt :=
  match o.hdrCache with
  | some h => (h, o)
  | none =>
    let h := o.base.render_headers
    (h, { o with hdrCache := some h })

/-- Embeds `DataField.render_data` with its cache. -/
def DataFieldSt.render_data (o : DataFieldSt) : Bytes × DataFieldSt :=
  match o.dataCache with
  | some d => (d, o)
  | none =>
    let d := o.base.render_data
    (d, { o with dataCache := some d })

/-- Embeds stateful `DataField.render`: headers chunk then data chunk, threading the
caches. -/
def DataFieldSt.render (o : DataFieldSt) : List Bytes × DataFieldSt :=
  let p1 := o.render_headers
  let p2 := p1.2.render_data
  ([p1.1, p2.1], p2.2)

/-- A `FileField` object with its `self._headers` cache.  `FileField.render_data` has
no cache in the source: the body is re-read from the source on every call. -/
structure FileFieldSt where
  base : FileField
  hdrCache : Option Bytes
deriving DecidableEq, Repr

/-- Embeds `FileField.render_headers` with its cache. -/
def FileFieldSt.render_headers (o : FileFieldSt) : Bytes × FileFieldSt :=
  match o.hdrCache with
  | some h => (h, o)
  | none =>
    let h := o.base.render_headers
    (h, { o with hdrCache := some h })

/-- Embeds stateful `FileField.render`: the cached headers chunk, then the body
re-read from the current source. -/
def FileFieldSt.render (o : FileFieldSt) : Except Err (List Bytes × FileFieldSt) :=
  let p := o.render_headers
  p.2.base.render_data.map (fun body => (p.1 :: body, p.2))

/-- The per-character escaping table as the claim C5 words it: quote to `%22`,
backslash to a literal two-character backslash sequence, control code points in
`0x00`–`0x1F` except `0x1B` percent-encoded uppercase, all else unchanged. -/
def claimEscapeChar (c : Char) : String :=
  if c = '"' then "%22"
  else if c = '\\' then "\\\\"
  else if c.toNat ≤ 0x1F ∧ c.toNat ≠ 0x1B then percentHex c.toNat
  else String.mk [c]

/-- The escaped value as the claim C5 words it. -/
def claimEscapedValue (value : String) : String :=
  String.join (value.data.map claimEscapeChar)

/-- The claim-side flattening of the data mapping (C3): each entry in iteration
order, list-valued entries expanded into one `(key, element)` pair per element. -/
def flattenData : List (String × DataEntry) → List (String × PyValue)
  | [] => []
  | (n, .single v) :: rest => (n, v) :: flattenData rest
  | (n, .many vs) :: rest => vs.map (fun v => (n, v)) ++ flattenData rest

/-- The claim-side scalar field sequence (C3): the flattened data pairs, in order. -/
def scalarFieldsSpec (data : List (String × DataEntry)) : Except Err (List MPField) :=
  mapExcept (fun p => (DataField.make (.str p.1) p.2).map MPField.data) (flattenData data)

/-- The claim-side file field sequence (C3): the file list entries, in order. -/
def fileFieldsSpec (files : List (String × FileSpec)) : Except Err (List MPField) :=
  mapExcept (fun p => (FileField.make p.1 p.2).map MPField.file) files

/-- One field's framed part (C3): opening delimiter, rendered chunks, CRLF. -/
def fieldPart (boundary : Bytes) (f : MPField) : Except Err (List Bytes) :=
  f.render.map (fun body => (dashdash ++ boundary ++ crlf) :: (body ++ [crlf]))

/-- The claim-side chunk sequence (C3): each field's part in field order, then the
closing delimiter. -/
def iterChunksSpec (s : MultipartStream) : Except Err (List Bytes) :=
  (mapExcept (fieldPart s.boundary) s.fields).map
    (fun parts => parts.flatten ++ [closingChunk s.boundary])

/-- Whether some supplied header key is equal, case-insensitively, to
`Content-Type` — the condition the claim C7 asserts. -/
def hasEqualCTKey (hs : List (String × String)) : Bool :=
  hs.any (fun kv => lowerStr kv.1 == "content-type")

/-- Whether some supplied header key contains `content-type` case-insensitively as a
substring — the condition the source actually tests. -/
def hasCTSubstringKey (hs : List (String × String)) : Bool :=
  hs.any (fun kv => strContainsSub "content-type" (lowerStr kv.1))

/-- Claim C7 as stated, at one input: the resolved content type is recorded as a
`Content-Type` entry appended to the supplied headers exactly when no supplied key is
case-insensitively equal to `Content-Type`; otherwise the headers are unchanged. -/
def claimC7Holds (name : String) (spec : FileSpec) : Prop :=
  ∀ fld, FileField.make name spec = .ok fld →
    ((hasEqualCTKey spec.extraHeaders = false ∧ resolvedContentType spec ≠ none) →
      fld.headers =
        spec.extraHeaders ++ [("Content-Type", (resolvedContentType spec).getD "")])
    ∧ ((hasEqualCTKey spec.extraHeaders = true ∨ resolvedContentType spec = none) →
      fld.headers = spec.extraHeaders)

/-- The C7 counterexample input: an extra header whose key contains `content-type`
as a substring without being equal to it. -/
def cexSpecC7 : FileSpec :=
  .four (some "t.txt") (.bytes (strBytes "hi")) none
    [("X-Content-Type-Options", "nosniff")]

/-- The data mapping of the concrete scenario (C2). -/
def sampleData2 : List (String × DataEntry) :=
  [("a", .single (.str "1")), ("b", .many [.str "x", .str "y"])]

/-- The file list of the concrete scenario (C2). -/
def sampleFiles2 : List (String × FileSpec) :=
  [("f", .two (some "t.txt") (.bytes (strBytes "hi")))]

/-- The exact expected body bytes of the concrete scenario (C2). -/
def expectedC2 : Bytes := strBytes
  ("--BOUND\r\nContent-Disposition: form-data; name=\"a\"\r\n\r\n1\r\n"
   ++ "--BOUND\r\nContent-Disposition: form-data; name=\"b\"\r\n\r\nx\r\n"
   ++ "--BOUND\r\nContent-Disposition: form-data; name=\"b\"\r\n\r\ny\r\n"
   ++ "--BOUND\r\nContent-Disposition: form-data; name=\"f\"; filename=\"t.txt\"\r\n"
   ++ "Content-Type: text/plain\r\n\r\nhi\r\n"
   ++ "--BOUND--\r\n")

/-- The stream the concrete scenario constructs. -/
def sampleStream : MultipartStream :=
  { boundary := strBytes "BOUND",
    content_type := "multipart/form-data; boundary=BOUND",
    fields :=
      [.data { name := "a", value := .str "1" },
       .data { name := "b", value := .str "x" },
       .data { name := "b", value := .str "y" },
       .file { name := "f", filename := some "t.txt",
               file := .bytes (strBytes "hi"),
               headers := [("Content-Type", "text/plain")] }] }

/-- The C8 counterexample field object: a file field over a seekable, probeable
file-like source whose current content is `b"hi"`, render caches empty. -/
def cexFileSt : FileFieldSt :=
  { base := { name := "f", filename := some "t.txt",
              file := .filelike (strBytes "hi") true true none,
              headers := [("Content-Type", "text/plain")] },
    hdrCache := none }

/-- Replacing the content of a field's underlying file-like source (the in-place
mutation of the file between two renders), caches untouched. -/
def mutateSource (o : FileFieldSt) (newContent : Bytes) : FileFieldSt :=
  { o with base := { o.base with file := .filelike newContent true true none } }

/-- Whether a runtime value is a Python `str` (the name check of
`DataField.__init__`). -/
def PyValue.isStr : PyValue → Bool
  | .str _ => true
  | _ => false

/-- Whether a raw source is a text-mode object (`io.StringIO` or `io.TextIOBase`),
rejected by `FileField.__init__`. -/
def RawSource.isTextMode : RawSource → Bool
  | .textBuffer _ => true
  | .textFile _ => true
  | _ => false

/-- A file field over an async source producing one bytes chunk (C6 witness). -/
def asyncBytesField : FileField :=
  { name := "f", filename := none, file := .asyncSource [.bytes [1]], headers := [] }

/-- A file field over an async source producing a non-bytes chunk (C6 witness). -/
def asyncTextField : FileField :=
  { name := "f", filename := none, file := .asyncSource [.notBytes "s"], headers := [] }

/-- The `FileField` the C7 counterexample input actually constructs. -/
def cexFldC7 : FileField :=
  { name := "f", filename := some "t.txt", file := .bytes (strBytes "hi"),
    headers := [("X-Content-Type-Options", "nosniff")] }

/-- The `FileField` built from `("t.txt", b"hi")` (used by the C7 witness). -/
def sampleFileFld : FileField :=
  { name := "f", filename := some "t.txt", file := .bytes (strBytes "hi"),
    headers := [("Content-Type", "text/plain")] }

/-- The plain two-tuple file specification `("t.txt", b"hi")`. -/
def sampleSpec2 : FileSpec := .two (some "t.txt") (.bytes (strBytes "hi"))

theorem escapeChar_eq (c : Char) :
    (_HTML5_FORM_ENCODING_REPLACEMENTS c).getD (String.mk [c]) = claimEscapeChar c := by
  simp only [_HTML5_FORM_ENCODING_REPLACEMENTS, claimEscapeChar]
  split_ifs with h1 h2 h3 h4 <;>
    simp_all [Bool.and_eq_true, bne_iff_ne, Nat.lt_succ_iff]

/-- C5: `_format_form_param(name, value)` returns the UTF-8 bytes of
`name="escapedValue"`, where `escapedValue` applies exactly the claim's substitution
table: `"` to `%22`, backslash to a two-character literal backslash sequence, every
control code point in `0x00`–`0x1F` except `0x1B` to uppercase `%XX`, and every other
character unchanged. -/
theorem C5_format_form_param (name value : String) :
    _format_form_param name value =
      strBytes (name ++ "=\"" ++ claimEscapedValue value ++ "\"") := by
  unfold _format_form_param
  have h : escapeFormValue value = claimEscapedValue value := by
    unfold escapeFormValue claimEscapedValue
    congr 1
    exact List.map_congr_left (fun c _ => escapeChar_eq c)
  rw [h]

/-- C2: the concrete scenario: fields `a=1`, `b=[x,y]`, file `f=(t.txt, b"hi")`,
boundary `BOUND` produce exactly the expected byte string, and
`get_content_length` equals its byte count. -/
theorem C2_concrete_scenario :
    ∃ s, MultipartStream.make sampleData2 sampleFiles2 (strBytes "BOUND") = .ok s ∧
      s.iter_chunks.map List.flatten = .ok expectedC2 ∧
      s.get_content_length = some expectedC2.length :=
  ⟨sampleStream, rfl, rfl, by decide⟩

theorem findBoundarySection_eq (secs : List Bytes) :
    findBoundarySection secs =
      match secs.find?
          (fun sec => (strBytes "boundary=").isPrefixOf ((bstrip sec).map byteLower)) with
      | some sec => some (stripQuotes ((bstrip sec).drop 9))
      | none => none := by
  induction secs with
  | nil => rfl
  | cons sec rest ih =>
    by_cases h : (strBytes "boundary=").isPrefixOf ((bstrip sec).map byteLower) = true
    · simp [findBoundarySection, h, List.find?_cons_of_pos]
    · rw [findBoundarySection, if_neg (by simp [h]), ih,
        List.find?_cons_of_neg _ (by simp [h])]

theorem bsplit_no_sep (sep : Nat) (l : Bytes) (h : l.contains sep = false) :
    bsplit sep l = [l] := by
  induction l with
  | nil => rfl
  | cons a t ih =>
    simp only [List.contains_cons, Bool.or_eq_false_iff] at h
    rw [bsplit, if_neg (by simp_all [BEq.comm]), ih h.2]

theorem prefix_mpfd_head (l : Bytes)
    (h : (strBytes "multipart/form-data").isPrefixOf l = true) :
    ∃ t, l = 109 :: t := by
  cases l with
  | nil => exact absurd h (by decide)
  | cons a t =>
    refine ⟨t, ?_⟩
    have he : strBytes "multipart/form-data" = 109 :: strBytes "ultipart/form-data" := by
      decide
    rw [he] at h
    simp only [List.isPrefixOf, Bool.and_eq_true, beq_iff_eq] at h
    rw [h.1]

theorem bstrip_cons_head (a : Nat) (t : Bytes) (ha : isWSByte a = false) :
    ∃ r, bstrip (a :: t) = a :: r := by
  unfold bstrip bstripBy
  rw [List.dropWhile_cons, if_neg (by simp [ha])]
  cases hdt : dropTrailing isWSByte t with
  | nil => exact ⟨[], by simp [dropTrailing, hdt, ha]⟩
  | cons r rs => exact ⟨r :: rs, by simp [dropTrailing, hdt]⟩

theorem boundary_pred_false_on_m (t : Bytes) :
    ((strBytes "boundary=").isPrefixOf ((bstrip (109 :: t)).map byteLower)) = false := by
  obtain ⟨r, hr⟩ := bstrip_cons_head 109 t (by decide)
  rw [hr]
  have : strBytes "boundary=" = 98 :: strBytes "oundary=" := by decide
  rw [this]
  simp [List.isPrefixOf, byteLower]

/-- C9: boundary extraction agrees everywhere with the claim's description (absent
unless the value begins with `multipart/form-data`; split on `;`; first parameter
whose trimmed case-insensitive form begins with `boundary=`; quotes stripped), and
the two concrete examples hold. -/
theorem C9_boundary_extraction :
    (∀ ct, get_multipart_boundary_from_content_type ct = boundaryExtractSpec ct)
    ∧ get_multipart_boundary_from_content_type
        (some (strBytes "multipart/form-data; boundary=\"abc123\"")) =
        some (strBytes "abc123")
    ∧ get_multipart_boundary_from_content_type (some (strBytes "text/plain")) = none := by
  refine ⟨?_, by decide, by decide⟩
  intro ct
  cases ct with
  | none => rfl
  | some l =>
    simp only [get_multipart_boundary_from_content_type, boundaryExtractSpec]
    by_cases hpre : (strBytes "multipart/form-data").isPrefixOf l = true
    · obtain ⟨t, rfl⟩ := prefix_mpfd_head l hpre
      rw [if_neg (by simp), if_neg (by simp [hpre]), if_pos hpre]
      by_cases hsem : (109 :: t).contains 59 = true
      · rw [if_pos hsem, findBoundarySection_eq]
      · rw [if_neg hsem, bsplit_no_sep 59 _ (by simpa using hsem)]
        simp [List.find?, boundary_pred_false_on_m]
    · rw [if_neg hpre]
      by_cases hemp : l.isEmpty = true
      · rw [if_pos hemp]
      · rw [if_neg hemp, if_pos (by simp [hpre])]

theorem readChunksF_flatten (fuel : Nat) (b : Bytes) (h : b.length ≤ fuel) :
    (readChunksF fuel b).flatten = b := by
  induction fuel generalizing b with
  | zero =>
    cases b with
    | nil => rfl
    | cons a t => simp at h
  | succ n ih =>
    cases b with
    | nil => rfl
    | cons a t =>
      simp only [readChunksF, List.flatten_cons]
      rw [ih ((a :: t).drop CHUNK_SIZE)
        (by simp only [List.length_drop, List.length_cons, CHUNK_SIZE] at h ⊢; omega)]
      exact List.take_append_drop _ _

theorem readChunks_flatten (b : Bytes) : (readChunks b).flatten = b :=
  readChunksF_flatten b.length b (Nat.le_refl _)

theorem field_render_of_length (f : MPField) (n : Nat) (h : f.get_length = some n) :
    ∃ body, f.render = .ok body ∧ body.flatten.length = n := by
  cases f with
  | data d =>
    refine ⟨d.render, rfl, ?_⟩
    simp only [MPField.get_length, Option.some.injEq] at h
    simp [DataField.render, DataField.get_length, ← h]
  | file f =>
    cases hf : f.file with
    | str s =>
      refine ⟨f.render_headers :: [to_bytes (.str s)], ?_, ?_⟩
      · simp [MPField.render, FileField.render, FileField.render_data, hf, Except.map]
      · simp only [MPField.get_length, FileField.get_length, hf, Option.some.injEq] at h
        simp [← h]
    | bytes b =>
      refine ⟨f.render_headers :: [to_bytes (.bytes b)], ?_, ?_⟩
      · simp [MPField.render, FileField.render, FileField.render_data, hf, Except.map]
      · simp only [MPField.get_length, FileField.get_length, hf, Option.some.injEq] at h
        simp [← h]
    | filelike content peekable seekable fname =>
      cases hp : peekable with
      | false =>
        exfalso
        simp [MPField.get_length, FileField.get_length, hf, peek_filelike_length, hp] at h
      | true =>
        refine ⟨f.render_headers :: readChunks content, ?_, ?_⟩
        · simp [MPField.render, FileField.render, FileField.render_data, hf, Except.map]
        · simp only [MPField.get_length, FileField.get_length, hf, peek_filelike_length,
            hp, if_true, Option.some.injEq] at h
          simp [readChunks_flatten, ← h]
    | asyncSource chunks =>
      exfalso
      simp [MPField.get_length, FileField.get_length, hf, peek_filelike_length] at h

theorem iter_length_loop (boundary : Bytes) (fs : List MPField)
    (h : ∀ f ∈ fs, f.get_length ≠ none) :
    ∃ chunks n, iterChunksLoop boundary fs = .ok chunks ∧
      chunks.flatten.length = n + (2 + boundary.length + 4) ∧
      ∀ acc, contentLengthLoop boundary.length fs acc = some (acc + n) := by
  induction fs with
  | nil =>
    refine ⟨[closingChunk boundary], 0, rfl, ?_, fun acc => by simp [contentLengthLoop]⟩
    have hfl : [closingChunk boundary].flatten = closingChunk boundary := by simp
    rw [hfl]
    simp only [closingChunk, dashdash, crlf, List.length_append, List.length_cons,
      List.length_nil]
    omega
  | cons f fs ih =>
    obtain ⟨n₀, hn₀⟩ := Option.ne_none_iff_exists'.mp (h f (by simp))
    obtain ⟨body, hb, hblen⟩ := field_render_of_length f n₀ hn₀
    obtain ⟨chunks, n, hc, hclen, hloop⟩ := ih (fun g hg => h g (by simp [hg]))
    refine ⟨((dashdash ++ boundary ++ crlf) :: (body ++ [crlf])) ++ chunks,
      (2 + boundary.length + 2) + n₀ + 2 + n, ?_, ?_, ?_⟩
    · simp only [iterChunksLoop, hb, hc]
    · have hfl : (((dashdash ++ boundary ++ crlf) :: (body ++ [crlf])) ++ chunks).flatten
          = (dashdash ++ boundary ++ crlf) ++ (body.flatten ++ (crlf ++ chunks.flatten)) := by
        simp
      rw [hfl]
      simp only [List.length_append, hblen, hclen, dashdash, crlf, List.length_cons,
        List.length_nil]
      omega
    · intro acc
      simp only [contentLengthLoop, hn₀, hloop, Option.some.injEq]
      omega

/-- C1: whenever every field's `get_length` is determinate, `get_content_length`
equals the exact byte count of the concatenation of the chunks of `iter_chunks`. -/
theorem C1_length_byte_agreement (data : List (String × DataEntry))
    (files : List (String × FileSpec)) (boundary : Bytes) (s : MultipartStream)
    (hmk : MultipartStream.make data files boundary = .ok s)
    (hdet : ∀ f ∈ s.fields, f.get_length ≠ none) :
    ∃ chunks, s.iter_chunks = .ok chunks ∧
      s.get_content_length = some chunks.flatten.length := by
  obtain ⟨chunks, n, hc, hclen, hloop⟩ := iter_length_loop s.boundary s.fields hdet
  refine ⟨chunks, hc, ?_⟩
  have h0 := hloop 0
  simp only [MultipartStream.get_content_length, h0]
  rw [hclen]
  simp only [Option.some.injEq]
  omega

/-- Witness for C1 at the concrete scenario inputs. -/
theorem C1_length_byte_agreement_witness :
    ∃ chunks, sampleStream.iter_chunks = .ok chunks ∧
      sampleStream.get_content_length = some chunks.flatten.length :=
  C1_length_byte_agreement sampleData2 sampleFiles2 (strBytes "BOUND") sampleStream
    rfl (by decide)

theorem contentLengthLoop_none (bl : Nat) (fs : List MPField)
    (h : ∃ f ∈ fs, f.get_length = none) :
    ∀ acc, contentLengthLoop bl fs acc = none := by
  induction fs with
  | nil => simp at h
  | cons f fs ih =>
    intro acc
    obtain ⟨g, hg, hgl⟩ := h
    rcases List.mem_cons.mp hg with rfl | hmem
    · simp [contentLengthLoop, hgl]
    · cases hfl : f.get_length with
      | none => simp [contentLengthLoop, hfl]
      | some fl => simp [contentLengthLoop, hfl, ih ⟨g, hmem, hgl⟩]

/-- C4: when some field length is indeterminate, `get_content_length` is absent (not
an error) and the headers carry `Transfer-Encoding: chunked` with no
`Content-Length`; otherwise `Content-Length` carries the determinate total; in both
cases the headers carry the `Content-Type` entry. -/
theorem C4_indeterminate_propagation (data : List (String × DataEntry))
    (files : List (String × FileSpec)) (boundary : Bytes) (s : MultipartStream)
    (hmk : MultipartStream.make data files boundary = .ok s) :
    ((∃ f ∈ s.fields, f.get_length = none) →
      s.get_content_length = none ∧
      List.lookup "Transfer-Encoding" s.get_headers = some "chunked" ∧
      List.lookup "Content-Length" s.get_headers = none)
    ∧ ((∀ f ∈ s.fields, f.get_length ≠ none) →
      ∃ n, s.get_content_length = some n ∧
        List.lookup "Content-Length" s.get_headers = some (toString n) ∧
        List.lookup "Transfer-Encoding" s.get_headers = none)
    ∧ List.lookup "Content-Type" s.get_headers = some s.content_type := by
  refine ⟨?_, ?_, ?_⟩
  · intro hex
    have hnone : s.get_content_length = none := by
      simp [MultipartStream.get_content_length,
        contentLengthLoop_none s.boundary.length s.fields hex 0]
    refine ⟨hnone, ?_, ?_⟩ <;>
      simp [MultipartStream.get_headers, hnone, List.lookup]
  · intro hall
    obtain ⟨chunks, n, _, _, hloop⟩ := iter_length_loop s.boundary s.fields hall
    have hsome : s.get_content_length = some (0 + n + (2 + s.boundary.length + 4)) := by
      simp [MultipartStream.get_content_length, hloop 0]
    refine ⟨_, hsome, ?_, ?_⟩ <;>
      simp [MultipartStream.get_headers, hsome, List.lookup]
  · cases hcl : s.get_content_length <;>
      simp [MultipartStream.get_headers, hcl, List.lookup]

/-- Witness for C4 at the concrete scenario inputs. -/
theorem C4_indeterminate_propagation_witness :
    ((∃ f ∈ sampleStream.fields, f.get_length = none) →
      sampleStream.get_content_length = none ∧
      List.lookup "Transfer-Encoding" sampleStream.get_headers = some "chunked" ∧
      List.lookup "Content-Length" sampleStream.get_headers = none)
    ∧ ((∀ f ∈ sampleStream.fields, f.get_length ≠ none) →
      ∃ n, sampleStream.get_content_length = some n ∧
        List.lookup "Content-Length" sampleStream.get_headers = some (toString n) ∧
        List.lookup "Transfer-Encoding" sampleStream.get_headers = none)
    ∧ List.lookup "Content-Type" sampleStream.get_headers = some sampleStream.content_type :=
  C4_indeterminate_propagation sampleData2 sampleFiles2 (strBytes "BOUND")
    sampleStream rfl

theorem exceptMap_ok (f : α → β) (a : α) :
    Except.map f (Except.ok a : Except Err α) = .ok (f a) := rfl

theorem exceptMap_error (f : α → β) (e : Err) :
    Except.map f (Except.error e : Except Err α) = .error e := rfl

theorem mapExcept_map (f : β → Except Err γ) (g : α → β) (l : List α) :
    mapExcept f (l.map g) = mapExcept (fun a => f (g a)) l := by
  induction l with
  | nil => rfl
  | cons a t ih => simp only [List.map_cons, mapExcept, ih]

theorem mapExcept_append (f : α → Except Err β) (l1 l2 : List α) :
    mapExcept f (l1 ++ l2) =
      match mapExcept f l1 with
      | .error e => .error e
      | .ok a =>
        match mapExcept f l2 with
        | .error e => .error e
        | .ok b => .ok (a ++ b) := by
  induction l1 with
  | nil =>
    simp only [List.nil_append, mapExcept]
    cases hm : mapExcept f l2 <;> simp
  | cons a t ih =>
    cases hfa : f a with
    | error e => simp [mapExcept, hfa]
    | ok b =>
      simp only [List.cons_append, mapExcept, hfa, List.append_eq, ih]
      cases ht : mapExcept f t with
      | error e => simp
      | ok xs => cases hl2 : mapExcept f l2 <;> simp

theorem fileFieldList_eq (files : List (String × FileSpec)) :
    fileFieldList files = fileFieldsSpec files := by
  induction files with
  | nil => rfl
  | cons p rest ih =>
    obtain ⟨n, v⟩ := p
    simp only [fileFieldList, fileFieldsSpec, mapExcept, ih]
    cases hm : FileField.make n v with
    | error e => simp [exceptMap_error]
    | ok f =>
      simp only [exceptMap_ok]
      cases hrest : mapExcept
          (fun p => (FileField.make p.1 p.2).map MPField.file) rest <;> rfl

theorem dataFieldList_eq (data : List (String × DataEntry)) :
    dataFieldList data = scalarFieldsSpec data := by
  induction data with
  | nil => rfl
  | cons p rest ih =>
    obtain ⟨n, e⟩ := p
    cases e with
    | single v =>
      simp only [dataFieldList, scalarFieldsSpec, flattenData, mapExcept, ih]
      cases hm : DataField.make (.str n) v with
      | error e => simp [exceptMap_error]
      | ok d =>
        simp only [exceptMap_ok]
        cases hrest :
          mapExcept
            (fun p => (DataField.make (.str p.1) p.2).map MPField.data)
            (flattenData rest) <;> rfl
    | many vs =>
      simp only [dataFieldList, scalarFieldsSpec, flattenData, ih]
      simp only [mapExcept_append, mapExcept_map]
      cases hvs :
        mapExcept (fun v => (DataField.make (.str n) v).map MPField.data) vs with
      | error e => rfl
      | ok here =>
        cases hrest :
          mapExcept
            (fun p => (DataField.make (.str p.1) p.2).map MPField.data)
            (flattenData rest) <;> rfl

theorem iterChunksLoop_spec (boundary : Bytes) (fs : List MPField) :
    iterChunksLoop boundary fs =
      (mapExcept (fieldPart boundary) fs).map
        (fun parts => parts.flatten ++ [closingChunk boundary]) := by
  induction fs with
  | nil => rfl
  | cons f fs ih =>
    cases hr : f.render with
    | error e => simp [iterChunksLoop, hr, mapExcept, fieldPart, Except.map]
    | ok body =>
      simp only [iterChunksLoop, hr, mapExcept, fieldPart, Except.map, ih]
      cases mapExcept (fieldPart boundary) fs <;> simp

/-- C3: the field sequence built at construction is all scalar fields first, in the
mapping's iteration order with list-valued entries expanded in list order, followed
by the file fields in input order; and `iter_chunks` emits one framed part per field
in exactly that order, then the closing delimiter. -/
theorem C3_field_order (data : List (String × DataEntry))
    (files : List (String × FileSpec)) (boundary : Bytes) (s : MultipartStream)
    (hmk : MultipartStream.make data files boundary = .ok s) :
    (∃ ds fs, scalarFieldsSpec data = .ok ds ∧ fileFieldsSpec files = .ok fs ∧
      s.fields = ds ++ fs)
    ∧ s.iter_chunks = iterChunksSpec s := by
  constructor
  · by_cases hb : boundary.all (fun b => b < 128) = true
    · rw [MultipartStream.make, if_pos hb] at hmk
      unfold _iter_fields at hmk
      rw [dataFieldList_eq, fileFieldList_eq] at hmk
      cases hds : scalarFieldsSpec data with
      | error e => rw [hds] at hmk; simp at hmk
      | ok ds =>
        rw [hds] at hmk
        cases hfs : fileFieldsSpec files with
        | error e => rw [hfs] at hmk; simp at hmk
        | ok fs =>
          rw [hfs] at hmk
          simp only [Except.ok.injEq] at hmk
          exact ⟨ds, fs, rfl, rfl, by rw [← hmk]⟩
    · rw [MultipartStream.make, if_neg hb] at hmk
      simp at hmk
  · unfold MultipartStream.iter_chunks iterChunksSpec
    exact iterChunksLoop_spec s.boundary s.fields

/-- Witness for C3 at the concrete scenario inputs. -/
theorem C3_field_order_witness :
    (∃ ds fs, scalarFieldsSpec sampleData2 = .ok ds ∧
      fileFieldsSpec sampleFiles2 = .ok fs ∧ sampleStream.fields = ds ++ fs)
    ∧ sampleStream.iter_chunks = iterChunksSpec sampleStream :=
  C3_field_order sampleData2 sampleFiles2 (strBytes "BOUND") sampleStream rfl

theorem arender_eq_render_of_not_async (f : MPField) (h : f.hasAsyncSource = false) :
    f.arender = f.render := by
  cases f with
  | data d => rfl
  | file ff =>
    simp only [MPField.arender, MPField.render, FileField.arender, FileField.render]
    simp only [MPField.hasAsyncSource, FileContent.isAsync] at h
    cases hf : ff.file <;>
      simp_all [FileField.arender_data]

theorem aiterLoop_eq_iterLoop (boundary : Bytes) (fs : List MPField)
    (h : ∀ f ∈ fs, f.hasAsyncSource = false) :
    aiterChunksLoop boundary fs = iterChunksLoop boundary fs := by
  induction fs with
  | nil => rfl
  | cons f fs ih =>
    simp only [aiterChunksLoop, iterChunksLoop,
      arender_eq_render_of_not_async f (h f (by simp)),
      ih (fun g hg => h g (by simp [hg]))]

/-- C10: when no file source is a suspension-capable (async) chunk producer, the
concatenation of the chunks of `aiter_chunks` equals byte-for-byte the concatenation
of the chunks of `iter_chunks` (the async path delegates non-async fields to the
blocking render and applies identical delimiter framing). -/
theorem C10_async_agrees_with_blocking (s : MultipartStream)
    (h : ∀ f ∈ s.fields, f.hasAsyncSource = false) :
    s.aiter_chunks.map List.flatten = s.iter_chunks.map List.flatten := by
  unfold MultipartStream.aiter_chunks MultipartStream.iter_chunks
  rw [aiterLoop_eq_iterLoop s.boundary s.fields h]

/-- Witness for C10 at the concrete scenario stream. -/
theorem C10_async_agrees_with_blocking_witness :
    sampleStream.aiter_chunks.map List.flatten =
      sampleStream.iter_chunks.map List.flatten :=
  C10_async_agrees_with_blocking sampleStream (by decide)

theorem mapExcept_error_of_mem (f : α → Except Err β) (l : List α) (a : α)
    (ha : a ∈ l) (he : ∀ b, f a ≠ .ok b) : ∃ e, mapExcept f l = .error e := by
  induction l with
  | nil => simp at ha
  | cons x t ih =>
    cases hx : f x with
    | error e => exact ⟨e, by simp [mapExcept, hx]⟩
    | ok b =>
      rcases List.mem_cons.mp ha with rfl | hmem
      · exact absurd hx (he b)
      · obtain ⟨e, hmap⟩ := ih hmem
        exact ⟨e, by simp [mapExcept, hx, hmap]⟩

/-- C6: every invalid input is rejected with the module's validation failure (a raised
`TypeError`) at the point of detection: non-textual scalar name at construction,
non-primitive scalar value at construction, text-mode file source at construction,
async source on the blocking render path, and a non-bytes chunk from an async source
during iteration. -/
theorem C6_validation_errors :
    (∀ name value, name.isStr = false → ∃ e, DataField.make name value = .error e)
    ∧ (∀ name d, ∃ e, DataField.make name (.other d) = .error e)
    ∧ (∀ (name : String) (spec : FileSpec), spec.sourceOf.isTextMode = true →
        ∃ e, FileField.make name spec = .error e)
    ∧ (∀ (f : FileField) (chunks : List AChunk), f.file = .asyncSource chunks →
        ∃ e, f.render_data = .error e)
    ∧ (∀ (f : FileField) (chunks : List AChunk) (d : String),
        f.file = .asyncSource chunks → AChunk.notBytes d ∈ chunks →
        ∃ e, f.arender_data = .error e) := by
  refine ⟨?_, ?_, ?_, ?_, ?_⟩
  · intro name value h
    cases name with
    | str s => simp [PyValue.isStr] at h
    | bytes b => exact ⟨_, rfl⟩
    | int i => exact ⟨_, rfl⟩
    | float t => exact ⟨_, rfl⟩
    | none => exact ⟨_, rfl⟩
    | other d => exact ⟨_, rfl⟩
  · intro name d
    cases name with
    | str s => exact ⟨_, rfl⟩
    | bytes b => exact ⟨_, rfl⟩
    | int i => exact ⟨_, rfl⟩
    | float t => exact ⟨_, rfl⟩
    | none => exact ⟨_, rfl⟩
    | other d2 => exact ⟨_, rfl⟩
  · intro name spec h
    cases hsrc : spec.sourceOf with
    | textBuffer s =>
      refine ⟨"Multipart file uploads require 'io.BytesIO', not 'io.StringIO'.", ?_⟩
      simp [FileField.make, hsrc, RawSource.toFileContent]
    | textFile s =>
      refine ⟨"Multipart file uploads must be opened in binary mode, not text mode.", ?_⟩
      simp [FileField.make, hsrc, RawSource.toFileContent]
    | str s => simp [RawSource.isTextMode, hsrc] at h
    | bytes b => simp [RawSource.isTextMode, hsrc] at h
    | filelike c pk sk fn => simp [RawSource.isTextMode, hsrc] at h
    | asyncSource cs => simp [RawSource.isTextMode, hsrc] at h
  · intro f chunks hf
    refine ⟨"Invalid type for file. AsyncIterable is not supported.", ?_⟩
    simp [FileField.render_data, hf]
  · intro f chunks d hf hmem
    simp only [FileField.arender_data, hf]
    exact mapExcept_error_of_mem _ chunks _ hmem (by intro b; simp)

/-- Witness for C6: each rejection exercised at a concrete input. -/
theorem C6_validation_errors_witness :
    (∃ e, DataField.make (.int 3) (.str "v") = .error e)
    ∧ (∃ e, DataField.make (.str "n") (.other "dict") = .error e)
    ∧ (∃ e, FileField.make "f" (.two (some "a.txt") (.textBuffer "hi")) = .error e)
    ∧ (∃ e, asyncBytesField.render_data = .error e)
    ∧ (∃ e, asyncTextField.arender_data = .error e) := by
  obtain ⟨c1, c2, c3, c4, c5⟩ := C6_validation_errors
  exact ⟨c1 (.int 3) (.str "v") rfl, c2 (.str "n") "dict",
    c3 "f" (.two (some "a.txt") (.textBuffer "hi")) rfl,
    c4 asyncBytesField [.bytes [1]] rfl,
    c5 asyncTextField [.notBytes "s"] "s" rfl (by decide)⟩

/-- C7 counterexample: at name `f`, spec `("t.txt", b"hi", None,
{"X-Content-Type-Options": "nosniff"})` the resolved type is `text/plain` and no
supplied key equals `Content-Type` case-insensitively, yet the source records no
`Content-Type` entry — the skip condition is substring containment, not equality. -/
theorem C7_counterexample : ¬ claimC7Holds "f" cexSpecC7 := by
  intro h
  have h1 := (h cexFldC7 rfl).1 (by decide)
  exact absurd h1 (by decide)

/-- C7 amended: content type is resolved once at construction (explicit argument,
else guess from filename, else absent) and recorded as a `Content-Type` entry
appended to the supplied headers; the recording is skipped exactly when some supplied
header key contains `content-type` case-insensitively as a substring. -/
theorem C7_amended_content_type (name : String) (spec : FileSpec) (fld : FileField)
    (hmk : FileField.make name spec = .ok fld) :
    ((hasCTSubstringKey spec.extraHeaders = false ∧ resolvedContentType spec ≠ none) →
      fld.headers =
        spec.extraHeaders ++ [("Content-Type", (resolvedContentType spec).getD "")])
    ∧ ((hasCTSubstringKey spec.extraHeaders = true ∨ resolvedContentType spec = none) →
      fld.headers = spec.extraHeaders) := by
  simp only [FileField.make] at hmk
  cases hsrc : spec.sourceOf.toFileContent with
  | error e => rw [hsrc] at hmk; exact absurd hmk (by simp)
  | ok file =>
    rw [hsrc] at hmk
    simp only [Except.ok.injEq] at hmk
    subst hmk
    constructor
    · rintro ⟨hsub, hres⟩
      simp only [hasCTSubstringKey] at hsub
      cases hct : resolvedContentType spec with
      | none => exact absurd hct hres
      | some ct => simp [hct, hsub]
    · intro hcase
      rcases hcase with hsub | hres
      · simp only [hasCTSubstringKey] at hsub
        cases hct : resolvedContentType spec <;> simp [hct, hsub]
      · simp [hres]

/-- Witness for the amended C7 at a concrete input. -/
theorem C7_amended_content_type_witness :
    ((hasCTSubstringKey sampleSpec2.extraHeaders = false ∧
      resolvedContentType sampleSpec2 ≠ none) →
      sampleFileFld.headers =
        sampleSpec2.extraHeaders ++
          [("Content-Type", (resolvedContentType sampleSpec2).getD "")])
    ∧ ((hasCTSubstringKey sampleSpec2.extraHeaders = true ∨
      resolvedContentType sampleSpec2 = none) →
      sampleFileFld.headers = sampleSpec2.extraHeaders) :=
  C7_amended_content_type "f" sampleSpec2 sampleFileFld rfl

/-- C8 counterexample: a file field's body is not cached.  Rendering the same field
object twice returns different bytes when the underlying file-like source's content
is mutated between the calls: the source re-seeks and re-reads the file on every
render, caching only the headers. -/
theorem C8_counterexample :
    ∃ out1 o1 out2 o2,
      cexFileSt.render = .ok (out1, o1) ∧
      (mutateSource o1 (strBytes "XY")).render = .ok (out2, o2) ∧
      out1.flatten ≠ out2.flatten := by
  refine ⟨_, _, _, _, rfl, rfl, ?_⟩
  decide

/-- C8 amended: a scalar field's render is fully cached — a second render returns
byte-identical output even if the field's name and value are replaced between the
calls; a file field's header render is cached the same way.  (A file field's body is
re-read from the source each render, per the counterexample.) -/
theorem C8_amended_caching :
    (∀ (o : DataFieldSt) (n' : String) (v' : DataValue),
      ((({ (o.render).2 with base := { name := n', value := v' } } : DataFieldSt).render).1)
        = (o.render).1)
    ∧ (∀ (o : FileFieldSt) (b' : FileField),
      ((({ (o.render_headers).2 with base := b' } : FileFieldSt).render_headers).1)
        = (o.render_headers).1) := by
  constructor
  · intro o n' v'
    obtain ⟨base, hc, dc⟩ := o
    cases hc <;> cases dc <;> rfl
  · intro o b'
    obtain ⟨base, hc⟩ := o
    cases hc <;> rfl
